import Mathlib

set_option autoImplicit false

/-!
Shallow embedding of the agama network-state reconciliation core.

Sources embedded here:
* `rust/agama-dbus-server/src/network/model.rs` — the connection model and
  the `NetworkState` registry (types, queries, `add_connection`,
  `update_connection`, `remove_connection`, `set_ports`, the custom
  `PartialEq` used for diffing, and the IP-method string conversions).
* `rust/agama-server/src/network/nm/adapter.rs` — the reconciliation
  engine: `is_writable`, `ordered_connections`, `add_ordered_connections`
  and the checkpointed `write` algorithm.

External library types (`uuid::Uuid`, `cidr::IpInet`, `std::net::IpAddr`,
`macaddr::MacAddr6`, the SSID newtype and the D-Bus service error) are
modelled as atoms with decidable equality: the embedded code only ever
compares or stores them.  Machine integers that occur (`u32` metrics) are
modelled as `Nat`; no arithmetic is performed on them.
-/

namespace Agama

/-- `uuid::Uuid`: an opaque identifier; only equality is used. -/
abbrev Uuid := Nat

/-- `cidr::IpInet` (an address with a network length): opaque atom. -/
abbrev IpInet := String

/-- `std::net::IpAddr`: opaque atom. -/
abbrev IpAddr := String

/-- `macaddr::MacAddr6`: opaque atom. -/
abbrev MacAddr6 := String

/-- The SSID newtype from agama-lib (a byte vector): opaque atom. -/
abbrev SSID := String

/-- `agama_lib::error::ServiceError`: opaque atom carried by adapter errors. -/
abbrev ServiceError := String

/-- The checkpoint handle (a D-Bus object path): opaque atom. -/
abbrev Checkpoint := String

/-- `DeviceType` from agama-lib: the five device kinds matched by
`Connection::new`. -/
inductive DeviceType where
  | loopback
  | ethernet
  | wireless
  | dummy
  | bond
  deriving DecidableEq

/-- `BondMode` from agama-lib.  Only its decidable equality is relevant to
the embedded code (it is a component of `BondConfig`, compared by the
derived `PartialEq`). -/
inductive BondMode where
  | balanceRR
  | activeBackup
  | other (name : String)
  deriving DecidableEq

/-- Network device (`struct Device`). -/
structure Device where
  name : String
  type_ : DeviceType
  deriving DecidableEq

/-- `enum MacAddress` (note: the Rust type does not derive `PartialEq`; the
Lean `DecidableEq` below is only a convenience for evaluating witnesses —
the embedded code never compares MAC addresses). -/
inductive MacAddress where
  | macAddr (mac : MacAddr6)
  | preserve
  | permanent
  | random
  | stable
  | unset
  deriving DecidableEq

/-- `enum Status`, derives `PartialEq` in the source. -/
inductive Status where
  | up
  | down
  | removed
  deriving DecidableEq

/-- `struct IpRoute`, derives `PartialEq` (structural). -/
structure IpRoute where
  destination : IpInet
  next_hop : Option IpAddr
  metric : Option Nat
  deriving DecidableEq

/-- IPv4 configuration methods (`enum Ipv4Method`). -/
inductive Ipv4Method where
  | disabled
  | auto
  | manual
  | linkLocal
  deriving DecidableEq

/-- IPv6 configuration methods (`enum Ipv6Method`). -/
inductive Ipv6Method where
  | disabled
  | auto
  | manual
  | linkLocal
  | ignore
  | dhcp
  deriving DecidableEq

/-- `struct UnknownIpMethod(String)`: the parse error for IP methods. -/
structure UnknownIpMethod where
  text : String
  deriving DecidableEq

/-- `impl Display for Ipv4Method`. -/
def Ipv4Method.toStr : Ipv4Method → String
  | .disabled => "disabled"
  | .auto => "auto"
  | .manual => "manual"
  | .linkLocal => "link-local"

/-- `impl FromStr for Ipv4Method`: the `match` over the accepted strings. -/
def Ipv4Method.from_str (s : String) : Except UnknownIpMethod Ipv4Method :=
  if s = "disabled" then .ok .disabled
  else if s = "auto" then .ok .auto
  else if s = "manual" then .ok .manual
  else if s = "link-local" then .ok .linkLocal
  else .error ⟨s⟩

/-- `impl Display for Ipv6Method`. -/
def Ipv6Method.toStr : Ipv6Method → String
  | .disabled => "disabled"
  | .auto => "auto"
  | .manual => "manual"
  | .linkLocal => "link-local"
  | .ignore => "ignore"
  | .dhcp => "dhcp"

/-- `impl FromStr for Ipv6Method`: the `match` over the accepted strings. -/
def Ipv6Method.from_str (s : String) : Except UnknownIpMethod Ipv6Method :=
  if s = "disabled" then .ok .disabled
  else if s = "auto" then .ok .auto
  else if s = "manual" then .ok .manual
  else if s = "link-local" then .ok .linkLocal
  else if s = "ignore" then .ok .ignore
  else if s = "dhcp" then .ok .dhcp
  else .error ⟨s⟩

/-- `struct IpConfig`, derives `PartialEq` (structural on all fields). -/
structure IpConfig where
  method4 : Ipv4Method
  method6 : Ipv6Method
  addresses : List IpInet
  nameservers : List IpAddr
  gateway4 : Option IpAddr
  gateway6 : Option IpAddr
  routes4 : Option (List IpRoute)
  routes6 : Option (List IpRoute)
  deriving DecidableEq

/-- A default `IpConfig` (Rust `Default`). -/
def IpConfig.default : IpConfig :=
  { method4 := .disabled, method6 := .disabled, addresses := [],
    nameservers := [], gateway4 := none, gateway6 := none,
    routes4 := none, routes6 := none }

/-- `struct MatchConfig`, derives `PartialEq` (structural). -/
structure MatchConfig where
  driver : List String
  interface : List String
  path : List String
  kernel : List String
  deriving DecidableEq

/-- A default `MatchConfig` (Rust `Default`). -/
def MatchConfig.default : MatchConfig :=
  { driver := [], interface := [], path := [], kernel := [] }

/-- `struct BondOptions(HashMap<String, String>)`.  Modelled as an
association list; the embedded code never compares bond options in a way a
claim depends on. -/
abbrev BondOptions := List (String × String)

/-- `struct BondConfig`, derives `PartialEq` (structural). -/
structure BondConfig where
  mode : BondMode
  options : BondOptions
  deriving DecidableEq

/-- `enum WirelessMode`. -/
inductive WirelessMode where
  | unknown
  | adHoc
  | infra
  | ap
  | mesh
  deriving DecidableEq

/-- `enum SecurityProtocol`. -/
inductive SecurityProtocol where
  | wep
  | owe
  | dynamicWEP
  | wpa2
  | wpa3Personal
  | wpa2Enterprise
  | wpa3Only
  deriving DecidableEq

/-- `struct WirelessConfig`, derives `PartialEq` (structural). -/
structure WirelessConfig where
  mode : WirelessMode
  ssid : SSID
  password : Option String
  security : SecurityProtocol
  deriving DecidableEq

/-- `struct BaseConnection`: the fields shared by every connection
variant.  Note the source derives `Clone`/`Debug`/`Default` but implements
`PartialEq` by hand (see `baseEq` below); the Lean `DecidableEq` is full
structural equality and is used only to evaluate concrete witnesses. -/
structure BaseConnection where
  id : String
  uuid : Uuid
  mac_address : MacAddress
  ip_config : IpConfig
  status : Status
  interface : Option String
  controller : Option Uuid
  match_config : MatchConfig
  deriving DecidableEq

/-- `impl PartialEq for BaseConnection`: compares exactly `id`, `uuid` and
`ip_config`. -/
def baseEq (a b : BaseConnection) : Bool :=
  a.id == b.id && a.uuid == b.uuid && a.ip_config == b.ip_config

/-- `struct EthernetConnection`, derives `PartialEq` (which delegates to
the custom `BaseConnection` equality). -/
structure EthernetConnection where
  base : BaseConnection
  deriving DecidableEq

/-- `struct WirelessConnection`, derives `PartialEq` (base equality plus
structural equality of the wireless config). -/
structure WirelessConnection where
  base : BaseConnection
  wireless : WirelessConfig
  deriving DecidableEq

/-- `struct LoopbackConnection`, derives `PartialEq`. -/
structure LoopbackConnection where
  base : BaseConnection
  deriving DecidableEq

/-- `struct DummyConnection`, derives `PartialEq`. -/
structure DummyConnection where
  base : BaseConnection
  deriving DecidableEq

/-- `struct BondConnection`, derives `PartialEq` (base equality plus
structural equality of the bond config). -/
structure BondConnection where
  base : BaseConnection
  bond : BondConfig
  deriving DecidableEq

/-- `enum Connection`: the tagged union over the five variants. -/
inductive Connection where
  | ethernet (conn : EthernetConnection)
  | wireless (conn : WirelessConnection)
  | loopback (conn : LoopbackConnection)
  | dummy (conn : DummyConnection)
  | bond (conn : BondConnection)
  deriving DecidableEq

/-- `Connection::base`: the shared base record of any variant. -/
def Connection.base : Connection → BaseConnection
  | .ethernet c => c.base
  | .wireless c => c.base
  | .loopback c => c.base
  | .dummy c => c.base
  | .bond c => c.base

/-- `Connection::base_mut` as a functional update of the base record. -/
def Connection.mapBase (f : BaseConnection → BaseConnection) : Connection → Connection
  | .ethernet c => .ethernet { c with base := f c.base }
  | .wireless c => .wireless { c with base := f c.base }
  | .loopback c => .loopback { c with base := f c.base }
  | .dummy c => .dummy { c with base := f c.base }
  | .bond c => .bond { c with base := f c.base }

/-- `Connection::id`. -/
def Connection.id (c : Connection) : String := c.base.id

/-- `Connection::uuid`. -/
def Connection.uuid (c : Connection) : Uuid := c.base.uuid

/-- `Connection::interface`. -/
def Connection.interface (c : Connection) : Option String := c.base.interface

/-- `Connection::controller`. -/
def Connection.controller (c : Connection) : Option Uuid := c.base.controller

/-- `Connection::ip_config`. -/
def Connection.ip_config (c : Connection) : IpConfig := c.base.ip_config

/-- `Connection::set_controller`. -/
def Connection.set_controller (c : Connection) (controller : Uuid) : Connection :=
  c.mapBase (fun b => { b with controller := some controller })

/-- `Connection::unset_controller`. -/
def Connection.unset_controller (c : Connection) : Connection :=
  c.mapBase (fun b => { b with controller := none })

/-- `Connection::remove`: marks the connection `Removed`. -/
def Connection.remove (c : Connection) : Connection :=
  c.mapBase (fun b => { b with status := .removed })

/-- `Connection::is_removed`. -/
def Connection.is_removed (c : Connection) : Bool := c.base.status == .removed

/-- `Connection::is_loopback`: `matches!(self, Connection::Loopback(_))`. -/
def Connection.is_loopback : Connection → Bool
  | .loopback _ => true
  | _ => false

/-- `Connection::is_ethernet`: true for the Loopback, Ethernet, Dummy and
Bond variants (the source is a disjunction of four `matches!` tests). -/
def Connection.is_ethernet : Connection → Bool
  | .loopback _ => true
  | .ethernet _ => true
  | .dummy _ => true
  | .bond _ => true
  | .wireless _ => false

/-- The derived `PartialEq` of `enum Connection`: same variant, and the
payload structs compare equal — which means the custom `baseEq` on the
shared base, plus structural equality of the wireless/bond config for
those two variants.  This is the equality used by the reconciliation
diffing and by `Vec::contains` in `add_ordered_connections`. -/
def connEq : Connection → Connection → Bool
  | .ethernet a, .ethernet b => baseEq a.base b.base
  | .wireless a, .wireless b => baseEq a.base b.base && a.wireless == b.wireless
  | .loopback a, .loopback b => baseEq a.base b.base
  | .dummy a, .dummy b => baseEq a.base b.base
  | .bond a, .bond b => baseEq a.base b.base && a.bond == b.bond
  | _, _ => false

/-- The `NetworkStateError` variants constructed by the embedded model
code (the enum itself lives in `network/error.rs`; the payload of each
variant is read off its construction sites in `model.rs`). -/
inductive NetworkStateError where
  | connectionExists (uuid : Uuid)
  | unknownConnection (id : String)
  | notControllerConnection (id : String)
  | invalidBondOptions
  | invalidWirelessMode (mode : String)
  | invalidSecurityProtocol (name : String)
  deriving DecidableEq

/-- `struct NetworkState`: the aggregate root. -/
structure NetworkState where
  devices : List Device
  connections : List Connection
  deriving DecidableEq

/-- `NetworkState::new`. -/
def NetworkState.new (devices : List Device) (connections : List Connection) : NetworkState :=
  { devices, connections }

/-- `NetworkState::get_device`: first device with the given name. -/
def NetworkState.get_device (s : NetworkState) (name : String) : Option Device :=
  s.devices.find? (fun d => d.name == name)

/-- `NetworkState::get_connection_by_uuid`: first connection with the
given uuid. -/
def NetworkState.get_connection_by_uuid (s : NetworkState) (uuid : Uuid) : Option Connection :=
  s.connections.find? (fun c => c.uuid == uuid)

/-- `NetworkState::get_connection_by_interface`: first connection whose
interface equals `Some name`. -/
def NetworkState.get_connection_by_interface (s : NetworkState) (name : String) : Option Connection :=
  s.connections.find? (fun c => c.interface == some name)

/-- `NetworkState::get_connection`: first connection with the given id. -/
def NetworkState.get_connection (s : NetworkState) (id : String) : Option Connection :=
  s.connections.find? (fun c => c.id == id)

/-- `NetworkState::add_connection`: rejects a duplicate `id` with
`ConnectionExists(new connection's uuid)`, otherwise pushes the
connection at the end of the list. -/
def NetworkState.add_connection (s : NetworkState) (conn : Connection) :
    Except NetworkStateError NetworkState :=
  if (s.get_connection conn.id).isSome then
    .error (.connectionExists conn.uuid)
  else
    .ok { s with connections := s.connections ++ [conn] }

/-- Replace the first connection whose id matches `conn.id` by `conn`
(the effect of `*old_conn = conn` through `get_connection_mut`). -/
def replaceFirstById (conn : Connection) : List Connection → List Connection
  | [] => []
  | c :: rest => if c.id == conn.id then conn :: rest else c :: replaceFirstById conn rest

/-- `NetworkState::update_connection`: fails with `UnknownConnection` when
no connection shares the id, otherwise overwrites the matching entry. -/
def NetworkState.update_connection (s : NetworkState) (conn : Connection) :
    Except NetworkStateError NetworkState :=
  if (s.get_connection conn.id).isSome then
    .ok { s with connections := replaceFirstById conn s.connections }
  else
    .error (.unknownConnection conn.id)

/-- Mark the first connection with the given id as removed (the effect of
`conn.remove()` through `get_connection_mut`). -/
def removeFirstById (id : String) : List Connection → List Connection
  | [] => []
  | c :: rest => if c.id == id then c.remove :: rest else c :: removeFirstById id rest

/-- `NetworkState::remove_connection`: soft delete (sets `Removed`). -/
def NetworkState.remove_connection (s : NetworkState) (id : String) :
    Except NetworkStateError NetworkState :=
  if (s.get_connection id).isSome then
    .ok { s with connections := removeFirstById id s.connections }
  else
    .error (.unknownConnection id)

/-- Resolution of one port name in `NetworkState::set_ports`: against the
interface name first, then against the connection id. -/
def resolvePort (s : NetworkState) (port : String) : Option Connection :=
  (s.get_connection_by_interface port).orElse (fun _ => s.get_connection port)

/-- The whole resolution loop of `set_ports`: collect the resolved uuids
in order, aborting on the first unresolved name. -/
def resolvePorts (s : NetworkState) : List String → Except NetworkStateError (List Uuid)
  | [] => .ok []
  | port :: rest =>
    match resolvePort s port with
    | none => .error (.unknownConnection port)
    | some connection =>
      match resolvePorts s rest with
      | .error e => .error e
      | .ok us => .ok (connection.uuid :: us)

/-- The mutation loop of `NetworkState::set_ports`, applied to one
connection: members of the new port set get the controller's uuid; any
other connection currently pointing at the controller is cleared. -/
def setPortsUpdate (controlled : List Uuid) (controllerUuid : Uuid) (conn : Connection) : Connection :=
  if controlled.contains conn.uuid then
    conn.set_controller controllerUuid
  else if conn.controller == some controllerUuid then
    conn.unset_controller
  else
    conn

/-- `NetworkState::set_ports`: only valid on a Bond controller; resolves
every port name before mutating anything, then replaces the controller's
port membership. -/
def NetworkState.set_ports (s : NetworkState) (controller : Connection) (ports : List String) :
    Except NetworkStateError NetworkState :=
  match controller with
  | .bond _ =>
    match resolvePorts s ports with
    | .error e => .error e
    | .ok controlled =>
      .ok { s with connections := s.connections.map (setPortsUpdate controlled controller.uuid) }
  | _ => .error (.notControllerConnection controller.id)

/-!
The reconciliation engine (`nm/adapter.rs`).  The NetworkManager client is
an external collaborator; it is modelled as an oracle giving the result of
every backend call, and `write` additionally returns the trace of backend
mutation calls it performed (checkpoint operations and per-connection
writes; the read-side queries `devices`/`connections` are not mutations
and are not traced).
-/

/-- The `NetworkAdapterError` variants constructed in `adapter.rs`; each
carries the underlying `ServiceError` (and nothing else). -/
inductive NetworkAdapterError where
  | read (e : ServiceError)
  | checkpoint (e : ServiceError)
  | write (e : ServiceError)
  deriving DecidableEq

/-- Whether a `NetworkAdapterError` is the `Write` variant. -/
def NetworkAdapterError.isWriteError : NetworkAdapterError → Bool
  | .write _ => true
  | _ => false

/-- The backend client (`NetworkManagerClient`), as an oracle for the
result of each call.  `remove_connection` receives only the uuid and
`add_or_update_connection` receives the connection and its resolved
controller, exactly as in the source. -/
structure NmClient where
  devices : Except ServiceError (List Device)
  connections : Except ServiceError (List Connection)
  create_checkpoint : Except ServiceError Checkpoint
  remove_connection : Uuid → Except ServiceError Unit
  add_or_update_connection : Connection → Option Connection → Except ServiceError Unit
  rollback_checkpoint : Checkpoint → Except ServiceError Unit
  destroy_checkpoint : Checkpoint → Except ServiceError Unit

/-- One backend mutation call, as recorded in the trace.  A
`removeConnection` event records the connection being processed; the
backend itself receives `conn.uuid`. -/
inductive BackendCall where
  | createCheckpoint
  | removeConnection (conn : Connection)
  | addOrUpdate (conn : Connection) (ctrl : Option Connection)
  | rollbackCheckpoint
  | destroyCheckpoint
  deriving DecidableEq

/-- `NetworkManagerAdapter::is_writable`: Loopback is never written. -/
def is_writable (conn : Connection) : Bool := !conn.is_loopback

/-- The two `continue` guards of the write loop: the connection is skipped
when it is not writable, or when an old connection with the same uuid
exists and compares equal under the model's diffing equality. -/
def skipConn (old_state : NetworkState) (conn : Connection) : Bool :=
  !is_writable conn ||
    (match old_state.get_connection_by_uuid conn.uuid with
     | some old_conn => connEq old_conn conn
     | none => false)

/-- The backend call issued for one non-skipped connection: a
remove-by-uuid when the connection is `Removed`, otherwise an
add-or-update passing the controller resolved in the desired state. -/
def connCall (client : NmClient) (network : NetworkState) (conn : Connection) :
    BackendCall × Except ServiceError Unit :=
  if conn.is_removed then
    (.removeConnection conn, client.remove_connection conn.uuid)
  else
    let ctrl := conn.controller.bind (fun uuid => network.get_connection_by_uuid uuid)
    (.addOrUpdate conn ctrl, client.add_or_update_connection conn ctrl)

/-- The per-connection loop of `write`, with the trailing
`destroy_checkpoint` on normal exit.  On the first failing backend call it
rolls the checkpoint back and stops: a successful rollback yields the
`Write` error with the call's cause, a failed rollback yields a
`Checkpoint` error. -/
def writeLoop (client : NmClient) (network old_state : NetworkState) (cp : Checkpoint) :
    List Connection → List BackendCall × Except NetworkAdapterError Unit
  | [] =>
    match client.destroy_checkpoint cp with
    | .ok _ => ([.destroyCheckpoint], .ok ())
    | .error e => ([.destroyCheckpoint], .error (.checkpoint e))
  | conn :: rest =>
    if skipConn old_state conn then
      writeLoop client network old_state cp rest
    else
      match (connCall client network conn).2 with
      | .ok _ =>
        let next := writeLoop client network old_state cp rest
        ((connCall client network conn).1 :: next.1, next.2)
      | .error e =>
        match client.rollback_checkpoint cp with
        | .ok _ =>
          ([(connCall client network conn).1, .rollbackCheckpoint], .error (.write e))
        | .error e2 =>
          ([(connCall client network conn).1, .rollbackCheckpoint], .error (.checkpoint e2))

/-- `add_ordered_connections`: emit the controller (resolved by uuid in
the network, `unwrap`ped) before the connection itself, de-duplicating
with `Vec::contains` (the model's diffing equality).  The recursion of the
source is not structurally terminating, so it takes explicit fuel: `none`
models a run that panics on a dangling controller uuid (`unwrap`) or never
terminates (a controller cycle). -/
def add_ordered_connections (network : NetworkState) :
    Nat → Connection → List Connection → Option (List Connection)
  | 0, _, _ => none
  | fuel + 1, conn, conns =>
    match conn.controller with
    | some uuid =>
      match network.get_connection_by_uuid uuid with
      | none => none
      | some controller =>
        match add_ordered_connections network fuel controller conns with
        | none => none
        | some conns1 =>
          some (if conns1.any (fun y => connEq y conn) then conns1 else conns1 ++ [conn])
    | none =>
      some (if conns.any (fun y => connEq y conn) then conns else conns ++ [conn])

/-- The accumulating loop of `ordered_connections` over a connection
list. -/
def orderedLoop (network : NetworkState) (fuel : Nat) :
    List Connection → List Connection → Option (List Connection)
  | conns, [] => some conns
  | conns, c :: rest =>
    match add_ordered_connections network fuel c conns with
    | none => none
    | some conns1 => orderedLoop network fuel conns1 rest

/-- `ordered_connections`: the dependency-respecting processing order of
the state's connections. -/
def ordered_connections (fuel : Nat) (network : NetworkState) : Option (List Connection) :=
  orderedLoop network fuel [] network.connections

/-- `NetworkManagerAdapter::write`: read the live state, open a
checkpoint, process the ordered connections, and commit by destroying the
checkpoint.  Returns the trace of backend mutation calls together with
the result; `none` models the runs on which `ordered_connections` panics
or diverges. -/
def write (client : NmClient) (network : NetworkState) (fuel : Nat) :
    Option (List BackendCall × Except NetworkAdapterError Unit) :=
  match client.devices with
  | .error e => some ([], .error (.read e))
  | .ok devs =>
    match client.connections with
    | .error e => some ([], .error (.read e))
    | .ok conns =>
      let old_state := NetworkState.new devs conns
      match client.create_checkpoint with
      | .error e => some ([], .error (.checkpoint e))
      | .ok cp =>
        match ordered_connections fuel network with
        | none => none
        | some ordered =>
          let out := writeLoop client network old_state cp ordered
          some (.createCheckpoint :: out.1, out.2)

/-- Whether a backend call is a write (remove or add-or-update) for a
Loopback-variant connection. -/
def callIsLoopbackWrite : BackendCall → Bool
  | .removeConnection conn => conn.is_loopback
  | .addOrUpdate conn _ => conn.is_loopback
  | _ => false

/-- The trace produced by a run of the write loop over connections that
are all either skipped or successfully written (used to state the
fail-fast theorem). -/
def okTrace (client : NmClient) (network old_state : NetworkState) :
    List Connection → List BackendCall
  | [] => []
  | conn :: rest =>
    if skipConn old_state conn then
      okTrace client network old_state rest
    else
      (connCall client network conn).1 :: okTrace client network old_state rest

/-! ## Concrete instances used by witnesses and counterexamples -/

/-- A base connection named `eth0` with uuid 1. -/
def wBase1 : BaseConnection :=
  { id := "eth0", uuid := 1, mac_address := .unset, ip_config := IpConfig.default,
    status := .up, interface := some "eth0", controller := none,
    match_config := MatchConfig.default }

/-- An Ethernet connection `eth0` with uuid 1. -/
def wEth1 : Connection := .ethernet { base := wBase1 }

/-- An Ethernet connection that shares the id `eth0` but has uuid 2. -/
def wEth1b : Connection := .ethernet { base := { wBase1 with uuid := 2 } }

/-- An Ethernet connection `eth1` with uuid 2. -/
def wEth2 : Connection :=
  .ethernet { base := { wBase1 with id := "eth1", uuid := 2, interface := some "eth1" } }

/-- The payload of the bond controller `bond0` (uuid 3). -/
def wBond0rec : BondConnection :=
  { base := { wBase1 with id := "bond0", uuid := 3, interface := none },
    bond := { mode := .balanceRR, options := [] } }

/-- The bond controller `bond0` with uuid 3. -/
def wBond0 : Connection := .bond wBond0rec

/-- A state holding `eth0`, `eth1` and `bond0`. -/
def wStateP : NetworkState := NetworkState.new [] [wEth1, wEth2, wBond0]

/-- The connection list of `wStateP` after `set_ports wBond0 [eth0, eth1]`. -/
def wConnsP1 : List Connection := wStateP.connections.map (setPortsUpdate [1, 2] wBond0.uuid)

/-- The state after the first `set_ports` call. -/
def wStateP1 : NetworkState := { wStateP with connections := wConnsP1 }

/-- The connection list of `wStateP1` after `set_ports wBond0 [eth1]`. -/
def wConnsP2 : List Connection := wConnsP1.map (setPortsUpdate [2] wBond0.uuid)

/-- The state after the second `set_ports` call. -/
def wStateP2 : NetworkState := { wStateP1 with connections := wConnsP2 }

/-- A base record for the wireless pair below: id `wlan0`, uuid 7. -/
def wBaseW : BaseConnection :=
  { id := "wlan0", uuid := 7, mac_address := .unset, ip_config := IpConfig.default,
    status := .up, interface := some "wlan0", controller := none,
    match_config := MatchConfig.default }

/-- A wireless connection with ssid `agama-1`. -/
def wWl1 : Connection :=
  .wireless { base := wBaseW,
              wireless := { mode := .infra, ssid := "agama-1", password := none,
                            security := .wep } }

/-- The same wireless connection except for the ssid (`agama-2`). -/
def wWl2 : Connection :=
  .wireless { base := wBaseW,
              wireless := { mode := .infra, ssid := "agama-2", password := none,
                            security := .wep } }

/-- What the diffing equality actually requires, stated field by field:
agreement on `id`, `uuid` and `ip_config` of the base, the same variant,
and — for the Wireless and Bond variants only — agreement on the
variant-specific configuration.  Differences in `mac_address`, `status`,
`interface`, `controller` and `match_config` never matter. -/
def connEqSpec (a b : Connection) : Prop :=
  a.base.id = b.base.id ∧ a.base.uuid = b.base.uuid ∧
  a.base.ip_config = b.base.ip_config ∧
  match a, b with
  | .ethernet _, .ethernet _ => True
  | .wireless x, .wireless y => x.wireless = y.wireless
  | .loopback _, .loopback _ => True
  | .dummy _, .dummy _ => True
  | .bond x, .bond y => x.bond = y.bond
  | _, _ => False

/-- The base of a bond connection that is its own controller (uuid 3,
controller 3).  Such a state is reachable through the public API:
`set_ports bond0 ["bond0"]` resolves the bond's own name and sets its
controller to its own uuid. -/
def wBondCycBase : BaseConnection :=
  { wBase1 with id := "bond0", uuid := 3, interface := none, controller := some 3 }

/-- The self-controlling bond connection built over `wBondCycBase`. -/
def wBondCyc : Connection :=
  .bond { base := wBondCycBase, bond := { mode := .balanceRR, options := [] } }

/-- A state whose single connection is its own controller: every
controller reference resolves, yet the ordering recursion never
terminates on it. -/
def wStateCyc : NetworkState := NetworkState.new [] [wBondCyc]

/-- An Ethernet port `eth0` (uuid 1) whose controller is uuid 3. -/
def wPort1 : Connection := .ethernet { base := { wBase1 with controller := some 3 } }

/-- The base of the second port: `eth1`, uuid 2, controller uuid 3. -/
def wPort2Base : BaseConnection :=
  { wBase1 with id := "eth1", uuid := 2, interface := some "eth1", controller := some 3 }

/-- An Ethernet port `eth1` (uuid 2) whose controller is uuid 3. -/
def wPort2 : Connection := .ethernet { base := wPort2Base }

/-- A state listing both ports before their bond controller (uuid 3). -/
def wStateOrd : NetworkState := NetworkState.new [] [wPort1, wPort2, wBond0]

/-- A rank decreasing along controller references in `wStateOrd`:
controllers rank 0, ports rank 1. -/
def wRank : Connection → Nat := fun c =>
  match c.controller with
  | none => 0
  | some _ => 1

/-- Membership in a connection list up to the model's diffing equality
(the notion `Vec::contains` uses in `add_ordered_connections`). -/
def ConnMem (c : Connection) (l : List Connection) : Prop :=
  ∃ y ∈ l, connEq y c = true

/-- Every element with a controller reference is preceded by an element
carrying the controller's uuid. -/
def GoodPos (l : List Connection) : Prop :=
  ∀ i, (hi : i < l.length) → ∀ u, (l.get ⟨i, hi⟩).controller = some u →
    ∃ j, ∃ hj : j < l.length, j < i ∧ (l.get ⟨j, hj⟩).uuid = u

/-- Decidable equality for `Except` results (a convenience for evaluating
concrete witnesses; both payload types already have it). -/
instance {ε α : Type} [DecidableEq ε] [DecidableEq α] : DecidableEq (Except ε α)
  | .ok a, .ok b =>
    if h : a = b then .isTrue (by rw [h]) else .isFalse (fun hh => h (by cases hh; rfl))
  | .ok _, .error _ => .isFalse (fun hh => by cases hh)
  | .error _, .ok _ => .isFalse (fun hh => by cases hh)
  | .error a, .error b =>
    if h : a = b then .isTrue (by rw [h]) else .isFalse (fun hh => h (by cases hh; rfl))

/-- A backend client whose calls all succeed. -/
def wClientOk : NmClient :=
  { devices := .ok [], connections := .ok [], create_checkpoint := .ok "cp",
    remove_connection := fun _ => .ok (),
    add_or_update_connection := fun _ _ => .ok (),
    rollback_checkpoint := fun _ => .ok (),
    destroy_checkpoint := fun _ => .ok () }

/-- A client for which adding or updating the connection with uuid 1
fails with cause `boom`; everything else succeeds. -/
def wClientFail : NmClient :=
  { wClientOk with
    add_or_update_connection := fun c _ =>
      if c.uuid == 1 then .error "boom" else .ok () }

/-- A client for which every add-or-update fails with cause `boom`. -/
def wClientBoom : NmClient :=
  { wClientOk with add_or_update_connection := fun _ _ => .error "boom" }

/-- Like `wClientBoom`, but rolling the checkpoint back also fails. -/
def wClientBoomRb : NmClient :=
  { wClientBoom with rollback_checkpoint := fun _ => .error "rbfail" }

/-- An Ethernet connection with a different id (`eth7`) and uuid 9. -/
def wEthB : Connection := .ethernet { base := { wBase1 with id := "eth7", uuid := 9 } }

/-- A loopback connection `lo` with uuid 4. -/
def wLoop : Connection :=
  .loopback { base := { wBase1 with id := "lo", uuid := 4, interface := some "lo" } }

/-- A state holding the loopback and an Ethernet connection. -/
def wStateL : NetworkState := NetworkState.new [] [wLoop, wEth1]

/-- The trace `write wClientOk wStateL` produces: the loopback is never
written. -/
def wTraceL : List BackendCall :=
  [.createCheckpoint, .addOrUpdate wEth1 none, .destroyCheckpoint]

/-! ## Helper lemmas -/

theorem connEq_refl (c : Connection) : connEq c c = true := by
  cases c <;> simp [connEq, baseEq]

theorem connEq_symm {a b : Connection} (h : connEq a b = true) : connEq b a = true := by
  cases a <;> cases b <;> simp_all [connEq, baseEq, beq_iff_eq]

theorem connEq_trans {a b c : Connection} (hab : connEq a b = true)
    (hbc : connEq b c = true) : connEq a c = true := by
  cases a <;> cases b <;> cases c <;> simp_all [connEq, baseEq, beq_iff_eq]

theorem connEq_uuid {a b : Connection} (h : connEq a b = true) : a.uuid = b.uuid := by
  cases a <;> cases b <;> simp_all [connEq, baseEq, beq_iff_eq, Connection.uuid,
    Connection.base]

theorem get_connection_by_uuid_uuid {s : NetworkState} {u : Uuid} {c : Connection}
    (h : s.get_connection_by_uuid u = some c) : c.uuid = u := by
  have := List.find?_some h
  simpa using this

theorem get_connection_by_uuid_mem {s : NetworkState} {u : Uuid} {c : Connection}
    (h : s.get_connection_by_uuid u = some c) : c ∈ s.connections :=
  List.mem_of_find?_eq_some h

theorem connMem_append_left {x : Connection} {l s : List Connection}
    (h : ConnMem x l) : ConnMem x (l ++ s) := by
  rcases h with ⟨y, hy, he⟩
  exact ⟨y, List.mem_append_left s hy, he⟩

theorem countP_le_one_append {l : List Connection} {c0 : Connection}
    (h : ∀ c, l.countP (fun y => connEq y c) ≤ 1)
    (hg : l.any (fun y => connEq y c0) = false) :
    ∀ c, (l ++ [c0]).countP (fun y => connEq y c) ≤ 1 := by
  intro c
  rw [List.countP_append]
  by_cases hcc : connEq c0 c = true
  · have hzero : l.countP (fun y => connEq y c) = 0 := by
      by_contra hpos
      have hpos2 : 0 < l.countP (fun y => connEq y c) := Nat.pos_of_ne_zero hpos
      rcases List.countP_pos.mp hpos2 with ⟨y, hy, hyeq⟩
      have hyc0 : connEq y c0 = true :=
        connEq_trans (by simpa using hyeq) (connEq_symm hcc)
      have : l.any (fun y => connEq y c0) = true :=
        List.any_eq_true.mpr ⟨y, hy, hyc0⟩
      rw [this] at hg
      cases hg
    simp [hzero, List.countP_cons, hcc]
  · have hf : connEq c0 c = false := by simpa using hcc
    have : List.countP (fun y => connEq y c) [c0] = 0 := by
      simp [List.countP_cons, hf]
    simpa [this] using h c

theorem goodPos_append {l : List Connection} {c : Connection}
    (hl : GoodPos l)
    (hc : ∀ u, c.controller = some u → ∃ y ∈ l, y.uuid = u) :
    GoodPos (l ++ [c]) := by
  intro i hi u hctrl
  by_cases hlt : i < l.length
  · have hget : (l ++ [c]).get ⟨i, hi⟩ = l.get ⟨i, hlt⟩ := List.get_append i hlt
    rw [hget] at hctrl
    rcases hl i hlt u hctrl with ⟨j, hj, hji, hju⟩
    have hj2 : j < (l ++ [c]).length := by
      simp only [List.length_append, List.length_singleton]
      omega
    refine ⟨j, hj2, hji, ?_⟩
    have : (l ++ [c]).get ⟨j, hj2⟩ = l.get ⟨j, hj⟩ := List.get_append j hj
    rw [this]
    exact hju
  · have hlen : i = l.length := by
      have := hi
      simp only [List.length_append, List.length_singleton] at this
      omega
    have hget : (l ++ [c]).get ⟨i, hi⟩ = c := by
      subst hlen
      simp
    rw [hget] at hctrl
    rcases hc u hctrl with ⟨y, hy, hyu⟩
    rcases List.get_of_mem hy with ⟨⟨j, hj⟩, rfl⟩
    have hj2 : j < (l ++ [c]).length := by
      simp only [List.length_append, List.length_singleton]
      omega
    refine ⟨j, hj2, by omega, ?_⟩
    have : (l ++ [c]).get ⟨j, hj2⟩ = l.get ⟨j, hj⟩ := List.get_append j hj
    rw [this]
    exact hyu

theorem add_ordered_spec (network : NetworkState) :
    ∀ (fuel : Nat) (conn : Connection) (acc acc' : List Connection),
      conn ∈ network.connections →
      add_ordered_connections network fuel conn acc = some acc' →
      (∃ suffix, acc' = acc ++ suffix ∧ ∀ x ∈ suffix, x ∈ network.connections) ∧
      ConnMem conn acc' ∧
      (((∀ c, acc.countP (fun y => connEq y c) ≤ 1) ∧ GoodPos acc) →
        (∀ c, acc'.countP (fun y => connEq y c) ≤ 1) ∧ GoodPos acc') := by
  intro fuel
  induction fuel with
  | zero =>
    intro conn acc acc' hmem h
    exact absurd h (by simp [add_ordered_connections])
  | succ k ih =>
    intro conn acc acc' hmem h
    rw [add_ordered_connections] at h
    cases hctrl : conn.controller with
    | none =>
      simp only [hctrl] at h
      by_cases hg : acc.any (fun y => connEq y conn) = true
      · rw [if_pos hg] at h
        have hacc' : acc' = acc := (Option.some.inj h).symm
        subst hacc'
        rcases List.any_eq_true.mp hg with ⟨y, hy, hye⟩
        exact ⟨⟨[], by simp⟩, ⟨y, hy, hye⟩, fun hinv => hinv⟩
      · have hgf : acc.any (fun y => connEq y conn) = false := by
          simpa using hg
        rw [if_neg (by simp [hgf])] at h
        have hacc' : acc' = acc ++ [conn] := (Option.some.inj h).symm
        subst hacc'
        refine ⟨⟨[conn], rfl, by simpa using hmem⟩,
          ⟨conn, by simp, connEq_refl conn⟩, ?_⟩
        rintro ⟨hcount, hpos⟩
        refine ⟨countP_le_one_append hcount hgf, ?_⟩
        refine goodPos_append hpos ?_
        intro u hu
        rw [hctrl] at hu
        cases hu
    | some u =>
      simp only [hctrl] at h
      cases hlook : network.get_connection_by_uuid u with
      | none => simp [hlook] at h
      | some ctrl =>
        simp only [hlook] at h
        cases hrec : add_ordered_connections network k ctrl acc with
        | none => simp [hrec] at h
        | some acc1 =>
          simp only [hrec] at h
          have hctrlmem : ctrl ∈ network.connections := get_connection_by_uuid_mem hlook
          rcases ih ctrl acc acc1 hctrlmem hrec with ⟨⟨suffix1, hs1, hs1mem⟩, hmem1, hinv1⟩
          have hctrluuid : ctrl.uuid = u := get_connection_by_uuid_uuid hlook
          by_cases hg : acc1.any (fun y => connEq y conn) = true
          · rw [if_pos hg] at h
            have hacc' : acc' = acc1 := (Option.some.inj h).symm
            subst hacc'
            rcases List.any_eq_true.mp hg with ⟨y, hy, hye⟩
            exact ⟨⟨suffix1, hs1, hs1mem⟩, ⟨y, hy, hye⟩, hinv1⟩
          · have hgf : acc1.any (fun y => connEq y conn) = false := by
              simpa using hg
            rw [if_neg (by simp [hgf])] at h
            have hacc' : acc' = acc1 ++ [conn] := (Option.some.inj h).symm
            subst hacc'
            refine ⟨⟨suffix1 ++ [conn], by rw [hs1, List.append_assoc], ?_⟩,
              ⟨conn, by simp, connEq_refl conn⟩, ?_⟩
            · intro x hx
              rcases List.mem_append.mp hx with hx1 | hx2
              · exact hs1mem x hx1
              · rcases List.mem_singleton.mp hx2 with rfl
                exact hmem
            · intro hinv
              rcases hinv1 hinv with ⟨hcount1, hpos1⟩
              refine ⟨countP_le_one_append hcount1 hgf, ?_⟩
              refine goodPos_append hpos1 ?_
              intro u2 hu2
              rw [hctrl] at hu2
              have hu2' : u2 = u := by cases hu2; rfl
              subst hu2'
              rcases hmem1 with ⟨y, hy, hye⟩
              exact ⟨y, hy, (connEq_uuid hye).trans hctrluuid⟩

theorem get_connection_isSome_iff (s : NetworkState) (id : String) :
    (s.get_connection id).isSome = true ↔ ∃ c ∈ s.connections, c.id = id := by
  simp [NetworkState.get_connection, List.find?_isSome]

theorem replaceFirstById_find (conn : Connection) (l : List Connection)
    (h : ∃ c ∈ l, c.id = conn.id) :
    (replaceFirstById conn l).find? (fun c => c.id == conn.id) = some conn := by
  induction l with
  | nil => simp at h
  | cons c rest ih =>
    by_cases hc : c.id = conn.id
    · simp [replaceFirstById, hc, List.find?]
    · have hrest : ∃ x ∈ rest, x.id = conn.id := by
        rcases h with ⟨x, hx, hid⟩
        rcases List.mem_cons.mp hx with rfl | hx'
        · exact absurd hid hc
        · exact ⟨x, hx', hid⟩
      simp [replaceFirstById, hc, List.find?, ih hrest]

theorem mapBase_base (f : BaseConnection → BaseConnection) (c : Connection) :
    (c.mapBase f).base = f c.base := by
  cases c <;> rfl

theorem set_controller_controller (c : Connection) (u : Uuid) :
    (c.set_controller u).controller = some u := by
  simp [Connection.set_controller, Connection.controller, mapBase_base]

theorem unset_controller_controller (c : Connection) :
    c.unset_controller.controller = none := by
  simp [Connection.unset_controller, Connection.controller, mapBase_base]

theorem resolvePorts_first_error (s : NetworkState) (good : List String) (bad : String)
    (rest : List String) (hgood : ∀ p ∈ good, (resolvePort s p).isSome)
    (hbad : resolvePort s bad = none) :
    resolvePorts s (good ++ bad :: rest) = .error (.unknownConnection bad) := by
  induction good with
  | nil => simp [resolvePorts, hbad]
  | cons p ps ih =>
    have hp : (resolvePort s p).isSome := hgood p (List.mem_cons_self p ps)
    rcases Option.isSome_iff_exists.mp hp with ⟨c, hc⟩
    have ih2 := ih (fun q hq => hgood q (List.mem_cons_of_mem p hq))
    simp [resolvePorts, hc, ih2]

theorem resolvePorts_ok_mem (s : NetworkState) (ports : List String) (us : List Uuid)
    (h : resolvePorts s ports = .ok us) :
    ∀ p ∈ ports, ∃ c, resolvePort s p = some c ∧ c.uuid ∈ us := by
  induction ports generalizing us with
  | nil => intro p hp; simp at hp
  | cons q qs ih =>
    intro p hp
    rw [resolvePorts] at h
    rcases hq : resolvePort s q with _ | c
    · rw [hq] at h; exact absurd h (by simp)
    · rw [hq] at h
      rcases hrest : resolvePorts s qs with e | vs
      · rw [hrest] at h; exact absurd h (by simp)
      · rw [hrest] at h
        have hus : us = c.uuid :: vs := by
          cases h; rfl
        rcases List.mem_cons.mp hp with rfl | hp'
        · exact ⟨c, hq, by simp [hus]⟩
        · rcases ih vs hrest p hp' with ⟨c2, hc2, hmem⟩
          exact ⟨c2, hc2, by simp [hus, hmem]⟩

theorem resolvePorts_error_shape (s : NetworkState) (ports : List String)
    (e : NetworkStateError) (h : resolvePorts s ports = .error e) :
    ∃ p ∈ ports, resolvePort s p = none ∧ e = .unknownConnection p := by
  induction ports with
  | nil => simp [resolvePorts] at h
  | cons q qs ih =>
    rw [resolvePorts] at h
    rcases hq : resolvePort s q with _ | c
    · rw [hq] at h
      refine ⟨q, List.mem_cons_self q qs, hq, ?_⟩
      cases h; rfl
    · rw [hq] at h
      rcases hrest : resolvePorts s qs with e2 | vs
      · rw [hrest] at h
        have he : e = e2 := by cases h; rfl
        rcases ih (he ▸ hrest) with ⟨p, hp, hnone, hshape⟩
        exact ⟨p, List.mem_cons_of_mem q hp, hnone, hshape⟩
      · rw [hrest] at h; exact absurd h (by simp)

theorem add_ordered_isSome (network : NetworkState) (m : Connection → Nat)
    (Hres : ∀ c ∈ network.connections, ∀ u, c.controller = some u →
      (network.get_connection_by_uuid u).isSome = true)
    (Hm : ∀ c ∈ network.connections, ∀ u ctrl, c.controller = some u →
      network.get_connection_by_uuid u = some ctrl → m ctrl < m c) :
    ∀ (fuel : Nat) (conn : Connection) (acc : List Connection),
      conn ∈ network.connections → m conn < fuel →
      (add_ordered_connections network fuel conn acc).isSome = true := by
  intro fuel
  induction fuel with
  | zero => intro conn acc hmem hlt; omega
  | succ k ih =>
    intro conn acc hmem hlt
    rw [add_ordered_connections]
    cases hctrl : conn.controller with
    | none => simp
    | some u =>
      have hres := Hres conn hmem u hctrl
      rcases Option.isSome_iff_exists.mp hres with ⟨ctrl, hlook⟩
      have hctrlmem : ctrl ∈ network.connections := get_connection_by_uuid_mem hlook
      have hmlt : m ctrl < m conn := Hm conn hmem u ctrl hctrl hlook
      have hrec := ih ctrl acc hctrlmem (by omega)
      rcases Option.isSome_iff_exists.mp hrec with ⟨acc1, hacc1⟩
      simp [hlook, hacc1]

theorem orderedLoop_isSome (network : NetworkState) (m : Connection → Nat)
    (Hres : ∀ c ∈ network.connections, ∀ u, c.controller = some u →
      (network.get_connection_by_uuid u).isSome = true)
    (Hm : ∀ c ∈ network.connections, ∀ u ctrl, c.controller = some u →
      network.get_connection_by_uuid u = some ctrl → m ctrl < m c)
    (fuel : Nat) :
    ∀ (cs : List Connection) (acc : List Connection),
      (∀ c ∈ cs, c ∈ network.connections ∧ m c < fuel) →
      (orderedLoop network fuel acc cs).isSome = true := by
  intro cs
  induction cs with
  | nil => intro acc h; simp [orderedLoop]
  | cons c0 rest ih =>
    intro acc h
    rcases h c0 (by simp) with ⟨hmem, hlt⟩
    have hstep := add_ordered_isSome network m Hres Hm fuel c0 acc hmem hlt
    rcases Option.isSome_iff_exists.mp hstep with ⟨acc1, hacc1⟩
    rw [orderedLoop]
    simp only [hacc1]
    exact ih acc1 (fun c hc => h c (List.mem_cons_of_mem c0 hc))

theorem orderedLoop_spec (network : NetworkState) (fuel : Nat) :
    ∀ (cs acc acc' : List Connection),
      (∀ c ∈ cs, c ∈ network.connections) →
      orderedLoop network fuel acc cs = some acc' →
      (∃ suffix, acc' = acc ++ suffix ∧ ∀ x ∈ suffix, x ∈ network.connections) ∧
      (∀ c ∈ cs, ConnMem c acc') ∧
      (((∀ c, acc.countP (fun y => connEq y c) ≤ 1) ∧ GoodPos acc) →
        (∀ c, acc'.countP (fun y => connEq y c) ≤ 1) ∧ GoodPos acc') := by
  intro cs
  induction cs with
  | nil =>
    intro acc acc' hmem h
    simp only [orderedLoop] at h
    have : acc = acc' := Option.some.inj h
    subst this
    exact ⟨⟨[], by simp, by simp⟩, by simp, fun hv => hv⟩
  | cons c0 rest ih =>
    intro acc acc' hmem h
    rw [orderedLoop] at h
    cases hstep : add_ordered_connections network fuel c0 acc with
    | none => simp [hstep] at h
    | some acc1 =>
      simp only [hstep] at h
      rcases add_ordered_spec network fuel c0 acc acc1 (hmem c0 (by simp)) hstep with
        ⟨⟨s1, hs1, hs1m⟩, hm1, hinv1⟩
      rcases ih acc1 acc' (fun c hc => hmem c (List.mem_cons_of_mem c0 hc)) h with
        ⟨⟨s2, hs2, hs2m⟩, hm2, hinv2⟩
      refine ⟨⟨s1 ++ s2, by rw [hs2, hs1, List.append_assoc], ?_⟩, ?_, ?_⟩
      · intro x hx
        rcases List.mem_append.mp hx with h1 | h2
        · exact hs1m x h1
        · exact hs2m x h2
      · intro c hc
        rcases List.mem_cons.mp hc with rfl | hcr
        · rw [hs2]; exact connMem_append_left hm1
        · exact hm2 c hcr
      · exact fun hinv => hinv2 (hinv1 hinv)

theorem add_ordered_cyc_none : ∀ (fuel : Nat) (acc : List Connection),
    add_ordered_connections wStateCyc fuel wBondCyc acc = none := by
  intro fuel
  induction fuel with
  | zero => intro acc; rfl
  | succ k ih =>
    intro acc
    rw [add_ordered_connections]
    have h1 : wBondCyc.controller = some 3 := rfl
    have h2 : wStateCyc.get_connection_by_uuid 3 = some wBondCyc := rfl
    simp [h1, h2, ih]

theorem skipConn_false_not_loopback {old_state : NetworkState} {conn : Connection}
    (h : skipConn old_state conn = false) : conn.is_loopback = false := by
  have h2 := h
  simp only [skipConn, is_writable, Bool.not_not, Bool.or_eq_false_iff] at h2
  exact h2.1

theorem connCall_fst (client : NmClient) (network : NetworkState) (conn : Connection) :
    (connCall client network conn).1 = .removeConnection conn ∨
    ∃ ctrl, (connCall client network conn).1 = .addOrUpdate conn ctrl := by
  by_cases hrem : conn.is_removed = true
  · left; simp [connCall, hrem]
  · right
    refine ⟨conn.controller.bind (fun uuid => network.get_connection_by_uuid uuid), ?_⟩
    simp [connCall, hrem]

theorem writeLoop_no_loopback (client : NmClient) (network old_state : NetworkState)
    (cp : Checkpoint) :
    ∀ (l : List Connection), ∀ call ∈ (writeLoop client network old_state cp l).1,
      callIsLoopbackWrite call = false := by
  intro l
  induction l with
  | nil =>
    intro call hcall
    rw [writeLoop] at hcall
    cases hd : client.destroy_checkpoint cp <;> rw [hd] at hcall <;>
      simp at hcall <;> subst hcall <;> rfl
  | cons conn rest ih =>
    intro call hcall
    rw [writeLoop] at hcall
    by_cases hskip : skipConn old_state conn = true
    · rw [if_pos hskip] at hcall
      exact ih call hcall
    · have hskipf : skipConn old_state conn = false := by simpa using hskip
      rw [if_neg (by simp [hskipf])] at hcall
      have hlb : conn.is_loopback = false := skipConn_false_not_loopback hskipf
      have hcallf : callIsLoopbackWrite (connCall client network conn).1 = false := by
        rcases connCall_fst client network conn with
          h | ⟨ctrl, h⟩ <;> rw [h] <;> simp [callIsLoopbackWrite, hlb]
      cases hres : (connCall client network conn).2 with
      | ok _ =>
        simp only [hres] at hcall
        rcases List.mem_cons.mp hcall with rfl | hrest
        · exact hcallf
        · exact ih call hrest
      | error e =>
        simp only [hres] at hcall
        cases hr : client.rollback_checkpoint cp <;> rw [hr] at hcall <;>
          simp at hcall <;>
          rcases hcall with rfl | rfl <;> first | exact hcallf | rfl

theorem writeLoop_okPart (client : NmClient) (network old_state : NetworkState)
    (cp : Checkpoint) :
    ∀ (l1 rest : List Connection),
      (∀ c ∈ l1, skipConn old_state c = true ∨ (connCall client network c).2 = .ok ()) →
      writeLoop client network old_state cp (l1 ++ rest) =
        (okTrace client network old_state l1 ++
           (writeLoop client network old_state cp rest).1,
         (writeLoop client network old_state cp rest).2) := by
  intro l1
  induction l1 with
  | nil => intro rest h; simp [okTrace]
  | cons c cs ih =>
    intro rest h
    have hcs : ∀ x ∈ cs, skipConn old_state x = true ∨
        (connCall client network x).2 = .ok () :=
      fun x hx => h x (List.mem_cons_of_mem c hx)
    by_cases hs : skipConn old_state c = true
    · rw [List.cons_append, writeLoop, if_pos hs, okTrace, if_pos hs]
      exact ih rest hcs
    · have hskipf : skipConn old_state c = false := by simpa using hs
      have hok : (connCall client network c).2 = .ok () := by
        rcases h c (by simp) with h1 | h2
        · rw [hskipf] at h1; cases h1
        · exact h2
      rw [List.cons_append, writeLoop, if_neg (by simp [hskipf])]
      simp only [hok]
      rw [okTrace, if_neg (by simp [hskipf])]
      rw [ih rest hcs]
      simp

theorem writeLoop_fail (client : NmClient) (network old_state : NetworkState)
    (cp : Checkpoint) (conn : Connection) (l2 : List Connection) (e : ServiceError)
    (hs : skipConn old_state conn = false)
    (he : (connCall client network conn).2 = .error e) :
    writeLoop client network old_state cp (conn :: l2) =
      ([(connCall client network conn).1, .rollbackCheckpoint],
        match client.rollback_checkpoint cp with
        | .ok _ => .error (.write e)
        | .error e2 => .error (.checkpoint e2)) := by
  rw [writeLoop, if_neg (by simp [hs])]
  simp only [he]
  cases hr : client.rollback_checkpoint cp <;> simp

theorem okTrace_mem (client : NmClient) (network old_state : NetworkState) :
    ∀ (l1 : List Connection) (call : BackendCall),
      call ∈ okTrace client network old_state l1 →
      ∃ c ∈ l1, call = (connCall client network c).1 := by
  intro l1
  induction l1 with
  | nil => intro call hcall; simp [okTrace] at hcall
  | cons c cs ih =>
    intro call hcall
    rw [okTrace] at hcall
    by_cases hs : skipConn old_state c = true
    · rw [if_pos hs] at hcall
      rcases ih call hcall with ⟨x, hx, hc⟩
      exact ⟨x, List.mem_cons_of_mem c hx, hc⟩
    · rw [if_neg hs] at hcall
      rcases List.mem_cons.mp hcall with rfl | hrest
      · exact ⟨c, by simp, rfl⟩
      · rcases ih call hrest with ⟨x, hx, hc⟩
        exact ⟨x, List.mem_cons_of_mem c hx, hc⟩

theorem connCall_fst_ne_checkpoint (client : NmClient) (network : NetworkState)
    (c : Connection) :
    (connCall client network c).1 ≠ .destroyCheckpoint ∧
    (connCall client network c).1 ≠ .rollbackCheckpoint ∧
    (connCall client network c).1 ≠ .createCheckpoint := by
  rcases connCall_fst client network c with
    h | ⟨ctrl, h⟩ <;> rw [h] <;> exact ⟨by simp, by simp, by simp⟩

/-! ## Theorems for the claims -/

/-- C8: every IPv4 and IPv6 method round-trips through its string
rendering, and any string outside the per-version accepted set parses to
`UnknownIpMethod` carrying that exact string. -/
theorem c8_ip_method_roundtrip :
    (∀ m : Ipv4Method, Ipv4Method.from_str m.toStr = .ok m) ∧
    (∀ m : Ipv6Method, Ipv6Method.from_str m.toStr = .ok m) ∧
    (∀ s : String, s ≠ "disabled" → s ≠ "auto" → s ≠ "manual" → s ≠ "link-local" →
      Ipv4Method.from_str s = .error ⟨s⟩) ∧
    (∀ s : String, s ≠ "disabled" → s ≠ "auto" → s ≠ "manual" → s ≠ "link-local" →
      s ≠ "ignore" → s ≠ "dhcp" → Ipv6Method.from_str s = .error ⟨s⟩) := by
  refine ⟨fun m => by cases m <;> rfl, fun m => by cases m <;> rfl, ?_, ?_⟩
  · intro s h1 h2 h3 h4
    simp [Ipv4Method.from_str, h1, h2, h3, h4]
  · intro s h1 h2 h3 h4 h5 h6
    simp [Ipv6Method.from_str, h1, h2, h3, h4, h5, h6]

/-- C8 witness: a concrete round trip and a concrete rejected string for
each IP version. -/
theorem c8_ip_method_roundtrip_witness :
    Ipv4Method.from_str "auto" = .ok .auto ∧
    Ipv4Method.from_str "bogus" = .error ⟨"bogus"⟩ ∧
    Ipv6Method.from_str "dhcp" = .ok .dhcp ∧
    Ipv6Method.from_str "bogus" = .error ⟨"bogus"⟩ :=
  ⟨c8_ip_method_roundtrip.1 .auto,
   c8_ip_method_roundtrip.2.2.1 "bogus" (by decide) (by decide) (by decide) (by decide),
   c8_ip_method_roundtrip.2.1 .dhcp,
   c8_ip_method_roundtrip.2.2.2 "bogus" (by decide) (by decide) (by decide) (by decide)
     (by decide) (by decide)⟩

/-- C9: `is_ethernet` is true exactly for the Ethernet, Loopback, Dummy
and Bond variants (false only for Wireless), and `is_loopback` is true
exactly for the Loopback variant. -/
theorem c9_variant_tests :
    ∀ c : Connection,
      (c.is_ethernet = true ↔
        ((∃ e, c = .ethernet e) ∨ (∃ l, c = .loopback l) ∨
         (∃ d, c = .dummy d) ∨ (∃ b, c = .bond b))) ∧
      (c.is_ethernet = false ↔ (∃ w, c = .wireless w)) ∧
      (c.is_loopback = true ↔ (∃ l, c = .loopback l)) := by
  intro c
  cases c <;> simp [Connection.is_ethernet, Connection.is_loopback]

/-- C5: adding a connection whose id is already taken (even by one with a
different uuid) fails with `ConnectionExists` and returns no new state
(the state is untouched), while adding a connection with a fresh id
appends it. -/
theorem c5_add_connection :
    ∀ (s : NetworkState) (conn : Connection),
      ((∃ c ∈ s.connections, c.id = conn.id) →
        s.add_connection conn = .error (.connectionExists conn.uuid)) ∧
      ((∀ c ∈ s.connections, c.id ≠ conn.id) →
        s.add_connection conn = .ok { s with connections := s.connections ++ [conn] }) := by
  intro s conn
  constructor
  · intro h
    have : (s.get_connection conn.id).isSome = true :=
      (get_connection_isSome_iff s conn.id).mpr h
    simp [NetworkState.add_connection, this]
  · intro h
    have : ¬(s.get_connection conn.id).isSome = true := by
      rw [get_connection_isSome_iff]
      rintro ⟨c, hc, hid⟩
      exact h c hc hid
    simp [NetworkState.add_connection, this]

/-- C5 witness: after adding `c1` to the empty state, adding `c2` with the
same id but a different uuid fails with `ConnectionExists` and the state
still holds exactly `c1`. -/
theorem c5_add_connection_witness :
    (NetworkState.new [] []).add_connection wEth1 = .ok (NetworkState.new [] [wEth1]) ∧
    (NetworkState.new [] [wEth1]).add_connection wEth1b =
      .error (.connectionExists wEth1b.uuid) ∧
    wEth1.uuid ≠ wEth1b.uuid ∧ wEth1.id = wEth1b.id :=
  ⟨by simpa using (c5_add_connection (NetworkState.new [] []) wEth1).2 (by decide),
   (c5_add_connection (NetworkState.new [] [wEth1]) wEth1b).1 (by decide),
   by decide, by decide⟩

/-- C6: updating a connection whose id is unknown fails with
`UnknownConnection` and returns no new state; otherwise the matching entry
is replaced wholesale (keyed by id), so looking the id up afterwards
yields the replacement connection, even when its uuid differs. -/
theorem c6_update_connection :
    ∀ (s : NetworkState) (conn : Connection),
      ((∀ c ∈ s.connections, c.id ≠ conn.id) →
        s.update_connection conn = .error (.unknownConnection conn.id)) ∧
      ((∃ c ∈ s.connections, c.id = conn.id) →
        s.update_connection conn =
          .ok { s with connections := replaceFirstById conn s.connections } ∧
        ({ s with connections := replaceFirstById conn s.connections } :
            NetworkState).get_connection conn.id = some conn) := by
  intro s conn
  constructor
  · intro h
    have : ¬(s.get_connection conn.id).isSome = true := by
      rw [get_connection_isSome_iff]
      rintro ⟨c, hc, hid⟩
      exact h c hc hid
    simp [NetworkState.update_connection, this]
  · intro h
    have hsome : (s.get_connection conn.id).isSome = true :=
      (get_connection_isSome_iff s conn.id).mpr h
    refine ⟨by simp [NetworkState.update_connection, hsome], ?_⟩
    simpa [NetworkState.get_connection] using replaceFirstById_find conn s.connections h

/-- C6 witness: updating an unknown id fails; updating a present id with a
replacement carrying a different uuid stores the replacement. -/
theorem c6_update_connection_witness :
    (NetworkState.new [] []).update_connection wEth1 =
      .error (.unknownConnection wEth1.id) ∧
    (NetworkState.new [] [wEth1]).update_connection wEth1b =
      .ok (NetworkState.new [] [wEth1b]) ∧
    (NetworkState.new [] [wEth1b]).get_connection wEth1b.id = some wEth1b ∧
    wEth1.uuid ≠ wEth1b.uuid :=
  ⟨(c6_update_connection (NetworkState.new [] []) wEth1).1 (by decide),
   by
    have h := (c6_update_connection (NetworkState.new [] [wEth1]) wEth1b).2 (by decide)
    simpa [NetworkState.new, replaceFirstById] using h.1,
   by
    have h := (c6_update_connection (NetworkState.new [] [wEth1]) wEth1b).2 (by decide)
    simpa [NetworkState.new, replaceFirstById] using h.2,
   by decide⟩

/-- C3 counterexample: two Wireless connections that agree on `id`,
`uuid` and `ip_config` (the custom base equality holds) but differ in the
wireless configuration are *not* equal under the diffing equality, because
the derived `PartialEq` of the enum also compares the variant-specific
config. -/
theorem c3_diffing_equality_counterexample :
    baseEq wWl1.base wWl2.base = true ∧ connEq wWl1 wWl2 = false := by
  decide

/-- C3 (amended): the diffing equality holds exactly when the two
connections are of the same variant, agree on `id`, `uuid` and
`ip_config`, and — for the Wireless and Bond variants — also agree on the
variant-specific configuration; differences in `mac_address`, `status`,
`interface`, `controller` and match rules are always ignored. -/
theorem c3_diffing_equality :
    ∀ a b : Connection, connEq a b = true ↔ connEqSpec a b := by
  intro a b
  cases a <;> cases b <;>
    simp [connEq, baseEq, connEqSpec, Connection.base, beq_iff_eq, and_assoc]

/-- C4: `set_ports` on a non-Bond connection always fails with
`NotControllerConnection`; an unresolvable port name (interface first,
then id) fails with `UnknownConnection`; on success every resolved port's
controller is set to the controller's uuid and every other connection
pointing at the controller is cleared (membership fully replaced). -/
theorem c4_set_ports :
    ∀ (s : NetworkState) (controller : Connection) (ports : List String),
      ((∀ b, controller ≠ .bond b) →
        s.set_ports controller ports = .error (.notControllerConnection controller.id)) ∧
      (∀ b, controller = .bond b → ∀ e, resolvePorts s ports = .error e →
        s.set_ports controller ports = .error e ∧
        ∃ p ∈ ports, resolvePort s p = none ∧ e = .unknownConnection p) ∧
      (∀ b, controller = .bond b → ∀ controlled, resolvePorts s ports = .ok controlled →
        s.set_ports controller ports =
          .ok { s with connections :=
                  s.connections.map (setPortsUpdate controlled controller.uuid) } ∧
        (∀ p ∈ ports, ∃ c, resolvePort s p = some c ∧ c.uuid ∈ controlled) ∧
        (∀ c : Connection,
          (c.uuid ∈ controlled →
            (setPortsUpdate controlled controller.uuid c).controller = some controller.uuid) ∧
          (c.uuid ∉ controlled → c.controller = some controller.uuid →
            (setPortsUpdate controlled controller.uuid c).controller = none) ∧
          (c.uuid ∉ controlled → c.controller ≠ some controller.uuid →
            setPortsUpdate controlled controller.uuid c = c))) := by
  intro s controller ports
  refine ⟨?_, ?_, ?_⟩
  · intro h
    cases controller with
    | bond b => exact absurd rfl (h b)
    | ethernet c => simp [NetworkState.set_ports, Connection.id, Connection.base]
    | wireless c => simp [NetworkState.set_ports, Connection.id, Connection.base]
    | loopback c => simp [NetworkState.set_ports, Connection.id, Connection.base]
    | dummy c => simp [NetworkState.set_ports, Connection.id, Connection.base]
  · rintro b rfl e herr
    exact ⟨by simp [NetworkState.set_ports, herr], resolvePorts_error_shape s ports e herr⟩
  · rintro b rfl controlled hok
    refine ⟨by simp [NetworkState.set_ports, hok], resolvePorts_ok_mem s ports controlled hok, ?_⟩
    intro c
    refine ⟨?_, ?_, ?_⟩
    · intro hmem
      simp [setPortsUpdate, hmem, set_controller_controller]
    · intro hnot hctrl
      simp [setPortsUpdate, hnot, hctrl, unset_controller_controller]
    · intro hnot hctrl
      simp [setPortsUpdate, hnot, hctrl]

/-- C4 witness: `set_ports` on `bond0` with `[eth0, eth1]` sets both
controllers to `bond0`'s uuid; re-running it with `[eth1]` clears `eth0`
and keeps `eth1` (replace, not merge); a non-Bond target always fails. -/
theorem c4_set_ports_witness :
    wStateP.set_ports wBond0 ["eth0", "eth1"] = .ok wStateP1 ∧
    wConnsP1.map Connection.controller = [some 3, some 3, none] ∧
    wStateP1.set_ports wBond0 ["eth1"] = .ok wStateP2 ∧
    wConnsP2.map Connection.controller = [none, some 3, none] ∧
    wStateP.set_ports wEth1 ["eth1"] = .error (.notControllerConnection "eth0") := by
  refine ⟨?_, by decide, ?_, by decide, ?_⟩
  · have h := ((c4_set_ports wStateP wBond0 ["eth0", "eth1"]).2.2 wBond0rec rfl [1, 2]
      (by rfl)).1
    exact h
  · have h := ((c4_set_ports wStateP1 wBond0 ["eth1"]).2.2 wBond0rec rfl [2]
      (by rfl)).1
    exact h
  · have h := (c4_set_ports wStateP wEth1 ["eth1"]).1 (by intro b h; simp [wEth1] at h)
    simpa [wEth1, Connection.id, Connection.base, wBase1] using h

/-- C10: `set_ports` resolves the whole port list before mutating
anything: when any name fails to resolve — even after earlier names
resolved — the call fails with `UnknownConnection` for that name and
yields no updated state (in this pure embedding mutation happens only
through an `.ok` result), so no connection's controller changes. -/
theorem c10_set_ports_atomic :
    ∀ (s : NetworkState) (b : BondConnection) (good : List String) (bad : String)
      (rest : List String),
      (∀ p ∈ good, (resolvePort s p).isSome) → resolvePort s bad = none →
      s.set_ports (.bond b) (good ++ bad :: rest) = .error (.unknownConnection bad) := by
  intro s b good bad rest hgood hbad
  simp [NetworkState.set_ports, resolvePorts_first_error s good bad rest hgood hbad]

/-- C10 witness: `eth0` resolves, `missing` does not; the call fails with
`UnknownConnection "missing"`. -/
theorem c10_set_ports_atomic_witness :
    (∀ p ∈ ["eth0"], (resolvePort wStateP p).isSome) ∧
    resolvePort wStateP "missing" = none ∧
    wStateP.set_ports wBond0 (["eth0"] ++ "missing" :: ["eth1"]) =
      .error (.unknownConnection "missing") :=
  ⟨by decide, by decide,
   c10_set_ports_atomic wStateP wBond0rec ["eth0"] "missing" ["eth1"]
     (by decide) (by decide)⟩

/-- C2 counterexample: in the state whose single connection is a bond
that is its own controller, every controller reference resolves to a
connection present in the state, yet `ordered_connections` never returns
a list: the recursion re-enters the same connection forever (the Rust
code overflows the stack); with any amount of fuel — here 1000 — the
embedding yields `none`. -/
theorem c2_ordered_connections_counterexample :
    wStateCyc.get_connection_by_uuid 3 = some wBondCyc ∧
    wBondCyc.controller = some 3 ∧
    wStateCyc.connections = [wBondCyc] ∧
    ordered_connections 1000 wStateCyc = none := by
  refine ⟨rfl, rfl, rfl, ?_⟩
  have hconns : wStateCyc.connections = [wBondCyc] := rfl
  rw [ordered_connections, hconns, orderedLoop, add_ordered_cyc_none]

/-- C2 (amended): for every state in which every controller reference
resolves *and* the controller relation is well-founded (it admits a rank
that strictly decreases from a connection to its controller — in
particular there are no reference cycles), `ordered_connections` returns,
for any sufficient fuel, a list in which each connection of the state
appears exactly once (counted up to the model's diffing equality, which
is what the de-duplication uses) and every connection with a controller
is preceded by an entry carrying the controller's uuid. -/
theorem c2_ordered_connections
    (network : NetworkState) (m : Connection → Nat) (fuel : Nat)
    (Hres : ∀ c ∈ network.connections, c.controller.isSome = true →
      (network.get_connection_by_uuid (c.controller.getD 0)).isSome = true)
    (Hm : ∀ c ∈ network.connections, c.controller.isSome = true →
      Option.all (fun ctrl => decide (m ctrl < m c))
        (network.get_connection_by_uuid (c.controller.getD 0)) = true)
    (Hfuel : ∀ c ∈ network.connections, m c < fuel) :
    ∃ l, ordered_connections fuel network = some l ∧
      (∀ c ∈ network.connections, l.countP (fun y => connEq y c) = 1) ∧
      (∀ x ∈ l, x ∈ network.connections) ∧
      GoodPos l := by
  have Hres2 : ∀ c ∈ network.connections, ∀ u, c.controller = some u →
      (network.get_connection_by_uuid u).isSome = true := by
    intro c hc u hu
    have h1 := Hres c hc (by simp [hu])
    simpa [hu] using h1
  have Hm2 : ∀ c ∈ network.connections, ∀ u ctrl, c.controller = some u →
      network.get_connection_by_uuid u = some ctrl → m ctrl < m c := by
    intro c hc u ctrl hu hl
    have h1 := Hm c hc (by simp [hu])
    rw [hu] at h1
    simp only [Option.getD_some] at h1
    rw [hl] at h1
    simpa using h1
  have hsome := orderedLoop_isSome network m Hres2 Hm2 fuel network.connections []
    (fun c hc => ⟨hc, Hfuel c hc⟩)
  rcases Option.isSome_iff_exists.mp hsome with ⟨l, hl⟩
  have hl2 : ordered_connections fuel network = some l := hl
  rcases orderedLoop_spec network fuel network.connections [] l (fun c hc => hc) hl with
    ⟨⟨s, hs, hsm⟩, hmall, hinv⟩
  have hbase : (∀ c, ([] : List Connection).countP (fun y => connEq y c) ≤ 1) ∧
      GoodPos ([] : List Connection) := by
    constructor
    · intro c; simp
    · intro i hi; simp at hi
  rcases hinv hbase with ⟨hcount, hgood⟩
  refine ⟨l, hl2, ?_, ?_, hgood⟩
  · intro c hc
    have hle := hcount c
    have hpos : 0 < l.countP (fun y => connEq y c) := by
      rcases hmall c hc with ⟨y, hy, hye⟩
      exact List.countP_pos.mpr ⟨y, hy, by simpa using hye⟩
    omega
  · intro x hx
    rw [hs] at hx
    exact hsm x (by simpa using hx)

/-- C2 witness: ports `eth0`, `eth1` both reference bond uuid 3, listed
before the bond; the hypotheses hold with rank 0 for controllers and 1
for ports at fuel 2, and the computed order is `[bond0, eth0, eth1]`
(the bond first and exactly once). -/
theorem c2_ordered_connections_witness :
    (∀ c ∈ wStateOrd.connections, wRank c < 2) ∧
    ordered_connections 2 wStateOrd = some [wBond0, wPort1, wPort2] ∧
    (∃ l, ordered_connections 2 wStateOrd = some l ∧
      (∀ c ∈ wStateOrd.connections, l.countP (fun y => connEq y c) = 1) ∧
      (∀ x ∈ l, x ∈ wStateOrd.connections) ∧
      GoodPos l) :=
  ⟨by decide, by rfl,
   c2_ordered_connections wStateOrd wRank 2 (by decide) (by decide) (by decide)⟩

/-- C7: whenever `write` completes (its ordered traversal terminates), no
backend write call — neither a remove nor an add-or-update — is ever
issued for a Loopback-variant connection, for every client, desired state
and live state, regardless of equality with the live state. -/
theorem c7_write_never_writes_loopback :
    ∀ (client : NmClient) (network : NetworkState) (fuel : Nat)
      (tr : List BackendCall) (res : Except NetworkAdapterError Unit),
      write client network fuel = some (tr, res) →
      ∀ call ∈ tr, callIsLoopbackWrite call = false := by
  intro client network fuel tr res h call hcall
  rw [write] at h
  cases hdev : client.devices with
  | error e =>
    rw [hdev] at h
    cases Option.some.inj h
    simp at hcall
  | ok devs =>
    simp only [hdev] at h
    cases hcon : client.connections with
    | error e =>
      rw [hcon] at h
      cases Option.some.inj h
      simp at hcall
    | ok conns =>
      simp only [hcon] at h
      cases hcp : client.create_checkpoint with
      | error e =>
        rw [hcp] at h
        cases Option.some.inj h
        simp at hcall
      | ok cp =>
        simp only [hcp] at h
        cases hord : ordered_connections fuel network with
        | none => rw [hord] at h; cases h
        | some ordered =>
          simp only [hord] at h
          cases Option.some.inj h
          rcases List.mem_cons.mp hcall with rfl | hrest
          · rfl
          · exact writeLoop_no_loopback client network (NetworkState.new devs conns)
              cp ordered call hrest

/-- C7 witness: with an all-succeeding client, a desired state holding a
loopback `lo` and an Ethernet `eth0` (live state empty, so nothing is
skipped by equality) produces only an add-or-update for `eth0`: no write
call concerns the loopback. -/
theorem c7_write_never_writes_loopback_witness :
    write wClientOk wStateL 9 = some (wTraceL, .ok ()) ∧
    (∀ call ∈ wTraceL, callIsLoopbackWrite call = false) :=
  ⟨by decide,
   c7_write_never_writes_loopback wClientOk wStateL 9 wTraceL (.ok ()) (by decide)⟩

/-- C1 counterexample: (i) two runs that differ only in the identity of
the failing connection (`eth0` with uuid 1 vs `eth7` with uuid 9) return
the *same* error value, `Write "boom"` — the error carries only the
underlying cause, not the failing connection's identity (the id is only
logged); (ii) when the rollback itself fails, `write` does not return a
`Write` error at all but a `Checkpoint` error, although a backend call
for a connection failed. -/
theorem c1_write_failfast_counterexample :
    Option.map Prod.snd (write wClientBoom (NetworkState.new [] [wEth1]) 9) =
      some (.error (.write "boom")) ∧
    Option.map Prod.snd (write wClientBoom (NetworkState.new [] [wEthB]) 9) =
      some (.error (.write "boom")) ∧
    wEth1.id ≠ wEthB.id ∧ wEth1.uuid ≠ wEthB.uuid ∧
    Option.map Prod.snd (write wClientBoomRb (NetworkState.new [] [wEth1]) 9) =
      some (.error (.checkpoint "rbfail")) ∧
    NetworkAdapterError.isWriteError (.checkpoint "rbfail") = false := by
  decide

/-- C1 (amended): when, during `write`, the backend call for some
connection fails (all earlier ordered connections having been skipped or
written successfully), then `rollbackCheckpoint` is invoked,
`destroyCheckpoint` is never invoked, no backend write is issued for any
later connection (the trace is exactly the successful-prefix calls, the
failing call and the rollback), and — provided the rollback succeeds —
`write` returns a `Write` error carrying the underlying cause (the
failing connection's id is logged, not carried in the error); if the
rollback fails, a `Checkpoint` error is returned instead. -/
theorem c1_write_failfast
    (client : NmClient) (network : NetworkState) (fuel : Nat)
    (devs : List Device) (conns : List Connection) (cp : Checkpoint)
    (l1 : List Connection) (conn : Connection) (l2 : List Connection)
    (e : ServiceError)
    (hdev : client.devices = .ok devs)
    (hcon : client.connections = .ok conns)
    (hcp : client.create_checkpoint = .ok cp)
    (hord : ordered_connections fuel network = some (l1 ++ conn :: l2))
    (hpre : ∀ c ∈ l1, skipConn (NetworkState.new devs conns) c = true ∨
      (connCall client network c).2 = .ok ())
    (hskip : skipConn (NetworkState.new devs conns) conn = false)
    (hfail : (connCall client network conn).2 = .error e) :
    (∃ out, write client network fuel = some out) ∧
    ∀ (tr : List BackendCall) (res : Except NetworkAdapterError Unit),
      write client network fuel = some (tr, res) →
      tr = .createCheckpoint ::
        (okTrace client network (NetworkState.new devs conns) l1 ++
          [(connCall client network conn).1, .rollbackCheckpoint]) ∧
      .rollbackCheckpoint ∈ tr ∧
      .destroyCheckpoint ∉ tr ∧
      (∀ call ∈ tr, call = .createCheckpoint ∨
        (∃ c ∈ l1, call = (connCall client network c).1) ∨
        call = (connCall client network conn).1 ∨
        call = .rollbackCheckpoint) ∧
      res = (match client.rollback_checkpoint cp with
             | .ok _ => .error (.write e)
             | .error e2 => .error (.checkpoint e2)) := by
  have hloop := writeLoop_okPart client network (NetworkState.new devs conns) cp
    l1 (conn :: l2) hpre
  have hfailEq := writeLoop_fail client network (NetworkState.new devs conns) cp
    conn l2 e hskip hfail
  have hw : write client network fuel =
      some (.createCheckpoint ::
        (okTrace client network (NetworkState.new devs conns) l1 ++
          [(connCall client network conn).1, .rollbackCheckpoint]),
        match client.rollback_checkpoint cp with
        | .ok _ => .error (.write e)
        | .error e2 => .error (.checkpoint e2)) := by
    rw [write, hdev]
    simp only [hcon, hcp, hord]
    rw [hloop, hfailEq]
  refine ⟨⟨_, hw⟩, ?_⟩
  intro tr res h
  rw [hw] at h
  rcases Option.some.inj h with h2
  have htr : .createCheckpoint ::
      (okTrace client network (NetworkState.new devs conns) l1 ++
        [(connCall client network conn).1, .rollbackCheckpoint]) = tr :=
    congrArg Prod.fst h2
  have hres := congrArg Prod.snd h2
  subst htr
  refine ⟨rfl, by simp, ?_, ?_, hres.symm⟩
  · intro hmem
    rcases List.mem_cons.mp hmem with hc | hmem2
    · cases hc
    · rcases List.mem_append.mp hmem2 with hok | hfl
      · rcases okTrace_mem client network (NetworkState.new devs conns) l1 _ hok with
          ⟨c, hcmem, hcall⟩
        exact (connCall_fst_ne_checkpoint client network c).1 hcall.symm
      · rcases List.mem_cons.mp hfl with hc | hc2
        · exact (connCall_fst_ne_checkpoint client network conn).1 hc.symm
        · rcases List.mem_singleton.mp hc2 with hc3
          cases hc3
  · intro call hcall
    rcases List.mem_cons.mp hcall with rfl | hmem2
    · exact Or.inl rfl
    · rcases List.mem_append.mp hmem2 with hok | hfl
      · rcases okTrace_mem client network (NetworkState.new devs conns) l1 call hok with
          ⟨c, hcmem, hcall2⟩
        exact Or.inr (Or.inl ⟨c, hcmem, hcall2⟩)
      · rcases List.mem_cons.mp hfl with rfl | hc2
        · exact Or.inr (Or.inr (Or.inl rfl))
        · rcases List.mem_singleton.mp hc2 with rfl
          exact Or.inr (Or.inr (Or.inr rfl))

/-- C1 witness: with a client failing exactly on `eth0` (uuid 1), desired
state `[eth0→bond0, eth1→bond0, bond0]`, the ordered run writes `bond0`,
fails on `eth0`, rolls back, never destroys the checkpoint, issues no
call for `eth1`, and returns `Write "boom"`. -/
theorem c1_write_failfast_witness :
    write wClientFail wStateOrd 2 =
      some ([.createCheckpoint, .addOrUpdate wBond0 none,
             .addOrUpdate wPort1 (some wBond0), .rollbackCheckpoint],
            .error (.write "boom")) ∧
    BackendCall.destroyCheckpoint ∉
      ([.createCheckpoint, .addOrUpdate wBond0 none,
        .addOrUpdate wPort1 (some wBond0), .rollbackCheckpoint] : List BackendCall) ∧
    BackendCall.rollbackCheckpoint ∈
      ([.createCheckpoint, .addOrUpdate wBond0 none,
        .addOrUpdate wPort1 (some wBond0), .rollbackCheckpoint] : List BackendCall) := by
  have h := c1_write_failfast wClientFail wStateOrd 2 [] [] "cp" [wBond0] wPort1 [wPort2]
    "boom" rfl rfl rfl (by rfl) (by decide) (by rfl) (by rfl)
  have hw : write wClientFail wStateOrd 2 =
      some ([.createCheckpoint, .addOrUpdate wBond0 none,
             .addOrUpdate wPort1 (some wBond0), .rollbackCheckpoint],
            .error (.write "boom")) := by decide
  have h2 := h.2 _ _ hw
  exact ⟨hw, h2.2.2.1, h2.2.1⟩

end Agama
